import Mathlib

/-!
Verification of the submission lifecycle and leaderboard export layer of a
competition-hosting platform.  Definitions are a shallow embedding of the
code in `src/apps/api/serializers/submissions.py` and, where the component is
only exercised by the tests in `src/apps/api/tests/test_competitions.py`
(phase migration, result export), a model built from the specification.
-/

set_option autoImplicit false

/-- Submission lifecycle states (`Submission` model status enum). -/
inductive Status where
  | SUBMITTING
  | SUBMITTED
  | RUNNING
  | SCORING
  | FINISHED
  | FAILED
  | CANCELLED
deriving DecidableEq, Repr

/-- A stored `Submission` row: the fields the serializers and the migration
engine read or write. -/
structure Submission where
  id : Nat
  owner : Nat
  phase : Nat
  parent : Option Nat
  hasChildren : Bool
  status : Status
  statusDetails : String
  secret : String
  data : Option Nat
  dataFileName : String
  description : String
  createdWhen : Nat
  isPublic : Bool
  leaderboard : Option Nat
deriving DecidableEq, Repr

/-- Side effects the serializer layer can emit: a dispatch to the external
execution collaborator (`run_submission(pk, is_scoring)`), a database save of
a submission row, and `Submission.start` on a row. -/
inductive Event where
  | dispatch (pk : Nat) (isScoring : Bool)
  | save (s : Submission)
  | start (pk : Nat)
deriving DecidableEq, Repr

/-- Errors raised on the externally-driven update path:
`PermissionError("Submission secret invalid")` for a secret mismatch and the
`KeyError` Python raises when `validated_data["status"]` is absent. -/
inductive UpdateError where
  | permissionDenied (msg : String)
  | keyError (key : String)
deriving DecidableEq, Repr

/-- The `validated_data` dict reaching `SubmissionCreationSerializer.update`:
the writable fields of its `Meta.fields`, each possibly absent. -/
structure ValidatedData where
  secret : Option String
  status : Option Status
  statusDetails : Option String
deriving DecidableEq, Repr

/-- `rest_framework`'s `ModelSerializer.update`: set each attribute present in
`validated_data` on the inst and save it. -/
def applyValidatedData (inst : Submission) (vd : ValidatedData) : Submission :=
  { inst with
    secret := vd.secret.getD inst.secret
    status := vd.status.getD inst.status
    statusDetails := vd.statusDetails.getD inst.statusDetails }

/-- `SubmissionCreationSerializer.update` (submissions.py lines 83-94):
reject unless `validated_data.get('secret')` equals the stored secret; read
`validated_data["status"]` (KeyError when absent); when it is `SCORING`,
call `run_submission(inst.pk, is_scoring=True)` before the inherited
update persists the new field values.  The returned event list records the
side effects in program order. -/
def serializerUpdate (inst : Submission) (vd : ValidatedData) :
    Except UpdateError (Submission × List Event) :=
  if vd.secret ≠ some inst.secret then
    .error (.permissionDenied "Submission secret invalid")
  else
    match vd.status with
    | none => .error (.keyError "status")
    | some st =>
      let updated := applyValidatedData inst vd
      let dispatches := if st = Status.SCORING then [Event.dispatch inst.id true] else []
      .ok (updated, dispatches ++ [Event.save updated])

/-- The submission row as stored after an update call: an exception leaves the
row untouched, a successful call leaves the row the serializer saved. -/
def storedAfterUpdate (inst : Submission) (vd : ValidatedData) : Submission :=
  match serializerUpdate inst vd with
  | .error _ => inst
  | .ok (s, _) => s

/-- The `validated_data` reaching `SubmissionCreationSerializer.create`: the
writable fields of its `Meta.fields` (description and filename are
read-only, owner is never among the serializer's fields). -/
structure CreationData where
  data : Option Nat
  phase : Nat
  status : Option Status
  statusDetails : Option String
  secret : Option String
deriving DecidableEq, Repr

/-- The `Submission` row `ModelSerializer.create` persists from
`validated_data` after `create` injects `owner` from the serializer context;
absent fields take the model defaults (a fresh submission starts in
`SUBMITTING`). -/
def newSubmissionRow (ctxOwner : Nat) (vd : CreationData) (newId : Nat) : Submission :=
  { id := newId
    owner := ctxOwner
    phase := vd.phase
    parent := none
    hasChildren := false
    status := vd.status.getD Status.SUBMITTING
    statusDetails := vd.statusDetails.getD ""
    secret := vd.secret.getD ""
    data := vd.data
    dataFileName := ""
    description := ""
    createdWhen := 0
    isPublic := false
    leaderboard := none }

/-- `SubmissionCreationSerializer.create` (submissions.py lines 77-81): set
`validated_data["owner"]` from the context, persist via the inherited create,
invoke `sub.start()`, return the new submission.  Events in program order. -/
def serializerCreate (ctxOwner : Nat) (vd : CreationData) (newId : Nat) :
    Submission × List Event :=
  let sub := newSubmissionRow ctxOwner vd newId
  (sub, [Event.save sub, Event.start sub.id])

/-- `os.path.basename`: the part of the path after the last slash. -/
def basename (p : String) : String :=
  String.mk ((p.toList.reverse.takeWhile (fun c => c ≠ '/')).reverse)

/-- The serialized output of `SubmissionCreationSerializer`: its `Meta.fields`
minus the write-only `secret`, with `filename` computed from the data blob. -/
structure SubmissionRepr where
  id : Nat
  data : Option Nat
  phase : Nat
  status : Status
  statusDetails : String
  filename : String
  description : String
deriving DecidableEq, Repr

/-- `SubmissionCreationSerializer.to_representation`: render every field of
`Meta.fields` except `secret`, which `extra_kwargs` marks write-only. -/
def toRepresentation (s : Submission) : SubmissionRepr :=
  { id := s.id
    data := s.data
    phase := s.phase
    status := s.status
    statusDetails := s.statusDetails
    filename := basename s.dataFileName
    description := s.description }

/-- A competition, as the permission check and the exporter see it. -/
structure Competition where
  id : Nat
  title : String
  createdBy : Nat
  collaborators : List Nat
deriving DecidableEq, Repr

/-- A phase with its list of submissions (insertion order). -/
structure Phase where
  id : Nat
  competition : Nat
  submissions : List Submission
deriving DecidableEq, Repr

/-- Error of the migration endpoint: 403 with the detail message the
endpoint returns. -/
inductive MigrationError where
  | permissionDenied (detail : String)
deriving DecidableEq, Repr

/-- Modelled from the spec: the permission rule of §4.2 and §6 — the
requester must be a collaborator or the creator of the owning competition
(the view code enforcing this is not under src/). -/
def isCompetitionAdmin (requester : Nat) (comp : Competition) : Bool :=
  requester = comp.createdBy || comp.collaborators.contains requester

/-- Modelled from the spec: the clone a migration makes of a source
submission (§4.2) — new identifier, same owner and data reference, target
phase, parent null, status reset to `SUBMITTING`. -/
def cloneSubmission (newId : Nat) (targetPhase : Nat) (s : Submission) : Submission :=
  { s with
    id := newId
    phase := targetPhase
    parent := none
    status := Status.SUBMITTING }

/-- Outcome of a successful migration: the updated target phase, the
execution dispatches issued, and the count of submissions created. -/
structure MigrationOutcome where
  source : Phase
  target : Phase
  events : List Event
  created : Nat
deriving DecidableEq, Repr

/-- Modelled from the spec: the phase migration engine
(`phases-manually_migrate`, §4.2); its implementation is not under src/,
only its tests are.  After the permission check it enumerates only the
top-level (parent == null) submissions of the source phase, clones each into
the target phase and calls `start` on each clone, one dispatch per clone. -/
def migrate (comp : Competition) (source target : Phase) (requester : Nat)
    (nextId : Nat) : Except MigrationError MigrationOutcome :=
  if isCompetitionAdmin requester comp then
    let tops := source.submissions.filter (fun s => s.parent.isNone)
    let clones := (List.range tops.length).zip tops |>.map
      (fun p => cloneSubmission (nextId + p.1) target.id p.2)
    .ok
      { source := source
        target := { target with submissions := target.submissions ++ clones }
        events := clones.map (fun c => Event.start c.id)
        created := clones.length }
  else
    .error (.permissionDenied "You do not have administrative permissions for this competition")

/-- The target phase as stored after a migration call: a 403 leaves it
untouched. -/
def targetAfterMigrate (comp : Competition) (source target : Phase)
    (requester : Nat) (nextId : Nat) : Phase :=
  match migrate comp source target requester nextId with
  | .error _ => target
  | .ok out => out.target

/-- A leaderboard, as the exporter sees it. -/
structure Leaderboard where
  id : Nat
  title : String
deriving DecidableEq, Repr

/-- Does `needle` occur at the head of `hay`? -/
def charsBegin : List Char → List Char → Bool
  | [], _ => true
  | _ :: _, [] => false
  | a :: as, b :: bs => a = b && charsBegin as bs

/-- Does `needle` occur contiguously anywhere in `hay`? -/
def charsContain (hay needle : List Char) : Bool :=
  match hay with
  | [] => needle.isEmpty
  | _ :: t => charsBegin needle hay || charsContain t needle

/-- Python's `needle in hay` on strings: case-sensitive contiguous substring
containment. -/
def strContains (hay needle : String) : Bool :=
  charsContain hay.toList needle.toList

/-- The export selector (§4.4): all leaderboards, by exact id, or by title
substring. -/
inductive Selector where
  | all
  | byId (id : Nat)
  | byTitle (t : String)
deriving DecidableEq, Repr

/-- Modelled from the spec: the composite display key `"{title}({id})"` of a
leaderboard (§4.4); the exporter producing it is not under src/. -/
def compositeKey (lb : Leaderboard) : String :=
  lb.title ++ "(" ++ toString lb.id ++ ")"

/-- Modelled from the spec: the exporter's leaderboard scoping (§4.4) — all,
exact id match, or case-sensitive title substring match; the exporter code is
not under src/, only its tests are. -/
def selectLeaderboards (lbs : List Leaderboard) : Selector → List Leaderboard
  | .all => lbs
  | .byId i => lbs.filter (fun lb => lb.id = i)
  | .byTitle t => lbs.filter (fun lb => strContains lb.title t)

/-- The composite keys of the leaderboards an export returns, in order. -/
def exportKeys (lbs : List Leaderboard) (sel : Selector) : List String :=
  (selectLeaderboards lbs sel).map compositeKey

/-- A ZIP export response: entry names with their CSV payloads, plus the two
HTTP headers the tests check. -/
structure ZipResponse where
  entries : List (String × String)
  contentType : String
  contentDisposition : String
deriving DecidableEq, Repr

/-- Modelled from the spec: the CSV rendered for one leaderboard starts with
the header row `participant,...` (§4.4); only its presence matters to the
claims here. -/
def csvFor (lb : Leaderboard) : String :=
  "participant," ++ compositeKey lb

/-- Modelled from the spec: the ZIP export (§4.4, §6); its implementation is
not under src/, only its tests are.  One CSV entry named
`"{title}({id}).csv"` per leaderboard in scope, content-type
`application/x-zip-compressed`, attachment filename
`"{competition.title}.zip"`. -/
def exportZip (comp : Competition) (lbs : List Leaderboard) (sel : Selector) :
    ZipResponse :=
  { entries := (selectLeaderboards lbs sel).map
      (fun lb => (compositeKey lb ++ ".csv", csvFor lb))
    contentType := "application/x-zip-compressed"
    contentDisposition := "attachment; filename=" ++ comp.title ++ ".zip" }

/-- Number of `start` dispatches in an event trace. -/
def countStarts (events : List Event) : Nat :=
  events.countP (fun e => match e with | Event.start _ => true | _ => false)

/-- A sample stored submission used to instantiate theorems. -/
def sampleSub : Submission :=
  { id := 1
    owner := 2
    phase := 3
    parent := none
    hasChildren := false
    status := Status.RUNNING
    statusDetails := ""
    secret := "tok"
    data := some 4
    dataFileName := "uploads/entry.zip"
    description := ""
    createdWhen := 5
    isPublic := false
    leaderboard := none }

/-- A sample submission already in the terminal state `FINISHED`. -/
def finishedSub : Submission :=
  { sampleSub with status := Status.FINISHED }

/-- A callback payload carrying the correct secret and requesting `RUNNING`. -/
def resurrectVd : ValidatedData :=
  { secret := some "tok", status := some Status.RUNNING, statusDetails := none }

/-- A callback payload carrying a wrong secret. -/
def wrongSecretVd : ValidatedData :=
  { secret := some "bad", status := some Status.FINISHED, statusDetails := none }

/-- A sample competition: creator 10, one collaborator 11. -/
def sampleComp : Competition :=
  { id := 1, title := "comp", createdBy := 10, collaborators := [11] }

/-- A child submission of `sampleSub` in phase 3. -/
def childSub (n : Nat) : Submission :=
  { sampleSub with id := 10 + n, parent := some sampleSub.id }

/-- A source phase holding one parent submission with two children. -/
def parentPhase : Phase :=
  { id := 3, competition := 1,
    submissions := [{ sampleSub with hasChildren := true }, childSub 1, childSub 2] }

/-- A source phase holding three parentless leaf submissions. -/
def leafPhase : Phase :=
  { id := 3, competition := 1,
    submissions := [sampleSub, { sampleSub with id := 21 }, { sampleSub with id := 22 }] }

/-- An empty target phase. -/
def emptyPhase : Phase :=
  { id := 7, competition := 1, submissions := [] }

/-- Two sample leaderboards with distinct ids. -/
def sampleLbs : List Leaderboard :=
  [{ id := 1, title := "alpha" }, { id := 2, title := "beta" }]

/-- C1: a status update whose secret does not match the stored token fails
with the authorization error before any other validation (the statement
covers every payload, including one with no status key at all) and leaves
the stored submission row — status and every other field — unchanged. -/
theorem wrong_secret_rejected_unchanged (inst : Submission) (vd : ValidatedData)
    (h : vd.secret ≠ some inst.secret) :
    serializerUpdate inst vd = .error (.permissionDenied "Submission secret invalid") ∧
    storedAfterUpdate inst vd = inst := by
  constructor
  · simp [serializerUpdate, h]
  · simp [storedAfterUpdate, serializerUpdate, h]

/-- C1 witness: the rejection at a concrete submission and payload. -/
theorem wrong_secret_rejected_unchanged_witness :
    wrongSecretVd.secret ≠ some sampleSub.secret ∧
    (serializerUpdate sampleSub wrongSecretVd =
        .error (.permissionDenied "Submission secret invalid") ∧
      storedAfterUpdate sampleSub wrongSecretVd = sampleSub) :=
  ⟨by decide, wrong_secret_rejected_unchanged sampleSub wrongSecretVd (by decide)⟩

/-- C2: once the secret check passes, the update dispatches
`run_submission(pk, is_scoring=True)` exactly when the requested status is
`SCORING`, and the dispatch happens before the save that persists the new
status; for any other requested status no dispatch is issued. -/
theorem scoring_update_dispatches_rerun (inst : Submission) (vd : ValidatedData)
    (st : Status) (hsec : vd.secret = some inst.secret) (hst : vd.status = some st) :
    ∃ s events, serializerUpdate inst vd = .ok (s, events) ∧ s.status = st ∧
      (st = Status.SCORING → events = [Event.dispatch inst.id true, Event.save s]) ∧
      (st ≠ Status.SCORING → events = [Event.save s]) := by
  refine ⟨applyValidatedData inst vd,
    (if st = Status.SCORING then [Event.dispatch inst.id true] else []) ++
      [Event.save (applyValidatedData inst vd)], ?_, ?_, ?_, ?_⟩
  · simp [serializerUpdate, hsec, hst]
  · simp [applyValidatedData, hst]
  · intro hsc; simp [hsc]
  · intro hsc; simp [hsc]

/-- C2 witness: a `SCORING` callback at a concrete submission dispatches the
re-run before the save. -/
theorem scoring_update_dispatches_rerun_witness :
    ({ secret := some "tok", status := some Status.SCORING,
        statusDetails := none } : ValidatedData).secret = some sampleSub.secret ∧
    ∃ s events,
      serializerUpdate sampleSub
          { secret := some "tok", status := some Status.SCORING, statusDetails := none } =
        .ok (s, events) ∧
      s.status = Status.SCORING ∧
      (Status.SCORING = Status.SCORING →
        events = [Event.dispatch sampleSub.id true, Event.save s]) ∧
      (Status.SCORING ≠ Status.SCORING → events = [Event.save s]) :=
  ⟨by decide,
    scoring_update_dispatches_rerun sampleSub
      { secret := some "tok", status := some Status.SCORING, statusDetails := none }
      Status.SCORING (by decide) rfl⟩

/-- C3 counterexample: a submission in the terminal state `FINISHED` accepts
a callback requesting `RUNNING` once the secret matches — the call succeeds
(no `InvalidTransitionError`) and the stored status changes. -/
theorem terminal_update_not_rejected_cex :
    finishedSub.status = Status.FINISHED ∧
    (serializerUpdate finishedSub resurrectVd).isOk = true ∧
    (storedAfterUpdate finishedSub resurrectVd).status = Status.RUNNING := by
  decide

/-- C3 amended: the update path performs no transition-validity check at
all — for every submission, terminal or not, a status update that passes the
secret check succeeds and applies the requested status verbatim. -/
theorem update_applies_any_transition (inst : Submission) (vd : ValidatedData)
    (st : Status) (hsec : vd.secret = some inst.secret) (hst : vd.status = some st) :
    (serializerUpdate inst vd).isOk = true ∧
    (storedAfterUpdate inst vd).status = st := by
  constructor
  · simp [serializerUpdate, hsec, hst, Except.isOk, Except.toBool]
  · simp [storedAfterUpdate, serializerUpdate, hsec, hst, applyValidatedData]

/-- C3 witness: the amended statement at the terminal-state submission. -/
theorem update_applies_any_transition_witness :
    resurrectVd.secret = some finishedSub.secret ∧
    ((serializerUpdate finishedSub resurrectVd).isOk = true ∧
      (storedAfterUpdate finishedSub resurrectVd).status = Status.RUNNING) :=
  ⟨by decide, update_applies_any_transition finishedSub resurrectVd Status.RUNNING
    (by decide) rfl⟩

/-- C9: submission creation stores the context owner as the new submission's
owner, persists the row, and invokes `start` exactly once on it, after the
save and before returning. -/
theorem create_sets_owner_and_starts_once (ctxOwner : Nat) (vd : CreationData)
    (newId : Nat) :
    (serializerCreate ctxOwner vd newId).1.owner = ctxOwner ∧
    (serializerCreate ctxOwner vd newId).2 =
      [Event.save (serializerCreate ctxOwner vd newId).1,
        Event.start (serializerCreate ctxOwner vd newId).1.id] ∧
    countStarts (serializerCreate ctxOwner vd newId).2 = 1 :=
  ⟨rfl, rfl, rfl⟩

/-- C10: the serialized representation of a submission does not depend on its
secret token — two submissions differing only in the stored secret serialize
identically, so the write-only secret never leaks through the output. -/
theorem representation_ignores_secret (s : Submission) (newSecret : String) :
    toRepresentation { s with secret := newSecret } = toRepresentation s :=
  rfl

/-- `charsBegin` decides "is an initial segment of". -/
theorem charsBegin_iff (n h : List Char) :
    charsBegin n h = true ↔ ∃ rest, h = n ++ rest := by
  induction n generalizing h with
  | nil => simp [charsBegin]
  | cons a as ih =>
    cases h with
    | nil => simp [charsBegin]
    | cons b bs =>
      simp only [charsBegin, Bool.and_eq_true, decide_eq_true_eq, ih,
        List.cons_append, List.cons.injEq]
      constructor
      · rintro ⟨rfl, rest, rfl⟩
        exact ⟨rest, rfl, rfl⟩
      · rintro ⟨rest, rfl, rfl⟩
        exact ⟨rfl, rest, rfl⟩

/-- `charsContain` decides contiguous-substring containment. -/
theorem charsContain_iff (h n : List Char) :
    charsContain h n = true ↔ ∃ p s, h = p ++ n ++ s := by
  induction h with
  | nil =>
    simp only [charsContain, List.isEmpty_iff]
    constructor
    · rintro rfl
      exact ⟨[], [], rfl⟩
    · rintro ⟨p, s, hps⟩
      rcases List.append_eq_nil.mp (List.append_eq_nil.mp hps.symm).1 with ⟨-, h2⟩
      exact h2
  | cons a t ih =>
    simp only [charsContain, Bool.or_eq_true, charsBegin_iff, ih]
    constructor
    · rintro (⟨rest, hr⟩ | ⟨p, s, rfl⟩)
      · exact ⟨[], rest, by simp [hr]⟩
      · exact ⟨a :: p, s, by simp⟩
    · rintro ⟨p, s, hp⟩
      cases p with
      | nil =>
        left
        exact ⟨s, by simpa using hp⟩
      | cons x xs =>
        right
        refine ⟨xs, s, ?_⟩
        have hx := hp
        simp only [List.cons_append] at hx
        exact (List.cons.injEq .. ▸ hx).2

/-- `strContains` is exactly Python's case-sensitive substring test. -/
theorem strContains_iff (hay needle : String) :
    strContains hay needle = true ↔
      ∃ p s, hay.toList = p ++ needle.toList ++ s :=
  charsContain_iff hay.toList needle.toList

/-- When ids are pairwise distinct, filtering by the id of a member yields
exactly that member. -/
theorem filter_id_eq_single (lbs : List Leaderboard) (lb : Leaderboard)
    (hmem : lb ∈ lbs) (hnd : (lbs.map Leaderboard.id).Nodup) :
    lbs.filter (fun x => x.id = lb.id) = [lb] := by
  induction lbs with
  | nil => cases hmem
  | cons x rest ih =>
    rw [List.map_cons, List.nodup_cons] at hnd
    obtain ⟨hx, hnd⟩ := hnd
    rcases List.mem_cons.mp hmem with rfl | hmem2
    · have hnone : ∀ y ∈ rest, ¬(y.id = lb.id) := fun y hy hid =>
        hx (hid ▸ List.mem_map_of_mem Leaderboard.id hy)
      simp only [List.filter_cons, decide_eq_true_eq, if_true, List.cons.injEq, true_and]
      rw [List.filter_eq_nil_iff]
      exact fun a ha => by simpa using hnone a ha
    · have hxne2 : x.id ≠ lb.id := fun hid =>
        hx (hid ▸ List.mem_map_of_mem Leaderboard.id hmem2)
      rw [show List.filter (fun y => decide (y.id = lb.id)) (x :: rest) =
          List.filter (fun y => decide (y.id = lb.id)) rest by
        simp [List.filter_cons, hxne2]]
      exact ih hmem2 hnd

/-- C7: selecting by a member's id returns exactly that one leaderboard,
keyed `"{title}({id})"`; selecting by a title string returns exactly the
leaderboards whose title contains that string as a case-sensitive contiguous
substring, and no others. -/
theorem export_selection_by_id_and_title (lbs : List Leaderboard)
    (lb : Leaderboard) (t : String)
    (hmem : lb ∈ lbs) (hnd : (lbs.map Leaderboard.id).Nodup) :
    (selectLeaderboards lbs (Selector.byId lb.id) = [lb] ∧
      exportKeys lbs (Selector.byId lb.id) =
        [lb.title ++ "(" ++ toString lb.id ++ ")"]) ∧
    ∀ x, x ∈ selectLeaderboards lbs (Selector.byTitle t) ↔
      x ∈ lbs ∧ ∃ p s, x.title.toList = p ++ t.toList ++ s := by
  have hsingle := filter_id_eq_single lbs lb hmem hnd
  refine ⟨⟨hsingle, ?_⟩, ?_⟩
  · rw [exportKeys, selectLeaderboards, hsingle]
    rfl
  · intro x
    rw [selectLeaderboards, List.mem_filter, strContains_iff]

/-- C7 witness: selection at two concrete leaderboards; `"et"` matches only
the title `"beta"`. -/
theorem export_selection_by_id_and_title_witness :
    ((⟨1, "alpha"⟩ : Leaderboard) ∈ sampleLbs ∧
      (sampleLbs.map Leaderboard.id).Nodup) ∧
    ((selectLeaderboards sampleLbs (Selector.byId 1) = [⟨1, "alpha"⟩] ∧
      exportKeys sampleLbs (Selector.byId 1) = ["alpha" ++ "(" ++ toString 1 ++ ")"]) ∧
    ∀ x, x ∈ selectLeaderboards sampleLbs (Selector.byTitle "et") ↔
      x ∈ sampleLbs ∧
        ∃ p s, x.title.toList = p ++ ("et" : String).toList ++ s) :=
  ⟨⟨by decide, by decide⟩,
    export_selection_by_id_and_title sampleLbs ⟨1, "alpha"⟩ "et"
      (by decide) (by decide)⟩

/-- C8: the ZIP export holds exactly one CSV entry named
`"{title}({id}).csv"` per leaderboard in scope and nothing else, and is
served with content-type `application/x-zip-compressed` and an attachment
filename `"{competition.title}.zip"`. -/
theorem zip_export_entries_and_headers (comp : Competition)
    (lbs : List Leaderboard) (sel : Selector)
    (hnd : ((selectLeaderboards lbs sel).map
      (fun lb => compositeKey lb ++ ".csv")).Nodup) :
    ((exportZip comp lbs sel).entries.map Prod.fst =
      (selectLeaderboards lbs sel).map (fun lb => compositeKey lb ++ ".csv")) ∧
    (∀ lb ∈ selectLeaderboards lbs sel,
      (((exportZip comp lbs sel).entries.map Prod.fst).count
        (compositeKey lb ++ ".csv")) = 1) ∧
    (exportZip comp lbs sel).contentType = "application/x-zip-compressed" ∧
    (exportZip comp lbs sel).contentDisposition =
      "attachment; filename=" ++ comp.title ++ ".zip" := by
  have hnames : (exportZip comp lbs sel).entries.map Prod.fst =
      (selectLeaderboards lbs sel).map (fun lb => compositeKey lb ++ ".csv") := by
    simp [exportZip, List.map_map, Function.comp]
  refine ⟨hnames, ?_, rfl, rfl⟩
  intro lb hmem
  rw [hnames]
  exact List.count_eq_one_of_mem hnd
    (List.mem_map_of_mem (fun lb => compositeKey lb ++ ".csv") hmem)

/-- C8 witness: the ZIP export over the two sample leaderboards. -/
theorem zip_export_entries_and_headers_witness :
    ((selectLeaderboards sampleLbs Selector.all).map
      (fun lb => compositeKey lb ++ ".csv")).Nodup ∧
    (((exportZip sampleComp sampleLbs Selector.all).entries.map Prod.fst =
      (selectLeaderboards sampleLbs Selector.all).map
        (fun lb => compositeKey lb ++ ".csv")) ∧
    (∀ lb ∈ selectLeaderboards sampleLbs Selector.all,
      (((exportZip sampleComp sampleLbs Selector.all).entries.map Prod.fst).count
        (compositeKey lb ++ ".csv")) = 1) ∧
    (exportZip sampleComp sampleLbs Selector.all).contentType =
      "application/x-zip-compressed" ∧
    (exportZip sampleComp sampleLbs Selector.all).contentDisposition =
      "attachment; filename=" ++ sampleComp.title ++ ".zip") :=
  ⟨by decide, zip_export_entries_and_headers sampleComp sampleLbs Selector.all
    (by decide)⟩

/-- C5: migrating a phase whose submissions are all parentless leaves creates
exactly one clone and one dispatch per source submission — the target grows
by N, the source phase is untouched. -/
theorem migrate_leaves_one_to_one (comp : Competition) (source target : Phase)
    (requester nextId : Nat)
    (hadmin : isCompetitionAdmin requester comp = true)
    (hleaf : ∀ s ∈ source.submissions, s.parent = none) :
    ∃ out, migrate comp source target requester nextId = .ok out ∧
      out.created = source.submissions.length ∧
      out.events.length = source.submissions.length ∧
      out.target.submissions.length =
        target.submissions.length + source.submissions.length ∧
      out.source = source := by
  have hfil : List.filter (fun s => s.parent.isNone) source.submissions =
      source.submissions :=
    List.filter_eq_self.mpr fun s hs => by simp [hleaf s hs]
  simp [migrate, hadmin, hfil, List.length_zip]

/-- C5 witness: three leaf submissions migrate into an empty phase as three
clones with three dispatches. -/
theorem migrate_leaves_one_to_one_witness :
    (isCompetitionAdmin 10 sampleComp = true ∧
      ∀ s ∈ leafPhase.submissions, s.parent = none) ∧
    ∃ out, migrate sampleComp leafPhase emptyPhase 10 100 = .ok out ∧
      out.created = leafPhase.submissions.length ∧
      out.events.length = leafPhase.submissions.length ∧
      out.target.submissions.length =
        emptyPhase.submissions.length + leafPhase.submissions.length ∧
      out.source = leafPhase :=
  ⟨⟨by decide, by decide⟩,
    migrate_leaves_one_to_one sampleComp leafPhase emptyPhase 10 100
      (by decide) (by decide)⟩

/-- C4: migrating a phase holding one parent submission and its K children
clones only the parent record into the target — one new submission and one
dispatch, whatever K is. -/
theorem migrate_parent_clones_once (comp : Competition) (source target : Phase)
    (requester nextId : Nat) (par : Submission) (children : List Submission)
    (hadmin : isCompetitionAdmin requester comp = true)
    (hsubs : source.submissions = par :: children)
    (hp : par.parent = none)
    (hc : ∀ c ∈ children, c.parent = some par.id) :
    ∃ out, migrate comp source target requester nextId = .ok out ∧
      out.created = 1 ∧ out.events.length = 1 ∧
      out.target.submissions =
        target.submissions ++ [cloneSubmission nextId target.id par] ∧
      out.source = source := by
  have hfil : List.filter (fun s => s.parent.isNone) source.submissions = [par] := by
    rw [hsubs, List.filter_cons_of_pos (by simp [hp]),
      List.filter_eq_nil_iff.mpr fun c hcc => by simp [hc c hcc]]
  simp [migrate, hadmin, hfil]
  rfl

/-- C4 witness: one parent with two children migrates as a single clone and a
single dispatch. -/
theorem migrate_parent_clones_once_witness :
    (isCompetitionAdmin 11 sampleComp = true ∧
      parentPhase.submissions =
        { sampleSub with hasChildren := true } :: [childSub 1, childSub 2] ∧
      ({ sampleSub with hasChildren := true } : Submission).parent = none ∧
      ∀ c ∈ [childSub 1, childSub 2],
        c.parent = some ({ sampleSub with hasChildren := true } : Submission).id) ∧
    ∃ out, migrate sampleComp parentPhase emptyPhase 11 100 = .ok out ∧
      out.created = 1 ∧ out.events.length = 1 ∧
      out.target.submissions = emptyPhase.submissions ++
        [cloneSubmission 100 emptyPhase.id { sampleSub with hasChildren := true }] ∧
      out.source = parentPhase :=
  ⟨⟨by decide, by decide, by decide, by decide⟩,
    migrate_parent_clones_once sampleComp parentPhase emptyPhase 11 100
      { sampleSub with hasChildren := true } [childSub 1, childSub 2]
      (by decide) (by decide) (by decide) (by decide)⟩

/-- C6: a requester who is neither the creator nor a collaborator gets the
403 error and the target phase keeps its submissions; a creator or
collaborator gets a successful migration. -/
theorem migrate_permission_gate (comp : Competition) (source target : Phase)
    (requester nextId : Nat) :
    (¬(requester = comp.createdBy ∨ requester ∈ comp.collaborators) →
      migrate comp source target requester nextId =
        .error (.permissionDenied
          "You do not have administrative permissions for this competition") ∧
      targetAfterMigrate comp source target requester nextId = target) ∧
    ((requester = comp.createdBy ∨ requester ∈ comp.collaborators) →
      ∃ out, migrate comp source target requester nextId = .ok out) := by
  have hiff : isCompetitionAdmin requester comp = true ↔
      (requester = comp.createdBy ∨ requester ∈ comp.collaborators) := by
    simp [isCompetitionAdmin]
  constructor
  · intro h
    have hb : isCompetitionAdmin requester comp = false := by
      cases hB : isCompetitionAdmin requester comp with
      | false => rfl
      | true => exact absurd (hiff.mp hB) h
    exact ⟨by simp [migrate, hb], by simp [targetAfterMigrate, migrate, hb]⟩
  · intro h
    have hb := hiff.mpr h
    simp [migrate, hb]

/-- C6 witness: user 12 (stranger) is rejected with the target untouched;
user 11 (collaborator) succeeds. -/
theorem migrate_permission_gate_witness :
    (¬((12 : Nat) = sampleComp.createdBy ∨ (12 : Nat) ∈ sampleComp.collaborators) ∧
      (migrate sampleComp leafPhase emptyPhase 12 100 =
        .error (.permissionDenied
          "You do not have administrative permissions for this competition") ∧
      targetAfterMigrate sampleComp leafPhase emptyPhase 12 100 = emptyPhase)) ∧
    (((11 : Nat) = sampleComp.createdBy ∨ (11 : Nat) ∈ sampleComp.collaborators) ∧
      ∃ out, migrate sampleComp leafPhase emptyPhase 11 100 = .ok out) :=
  ⟨⟨by decide,
    (migrate_permission_gate sampleComp leafPhase emptyPhase 12 100).1 (by decide)⟩,
   ⟨by decide,
    (migrate_permission_gate sampleComp leafPhase emptyPhase 11 100).2 (by decide)⟩⟩
